import Mathlib

/-!
Verification of the phpToro embedding bridge.

This file gives a shallow embedding of the two C translation units of the
phpToro runtime bridge and proves the documented properties about them:

* `ext/phptoro_ext.c` — the `phptoro()` dispatch function, the
  `phptoro_ext_prepare()` setup routine and the INI defaults string
  `phptoro_ini_entries`.
* `phptoro_phpinfo.c` — the branded `phptoro_phpinfo()` override wrapper,
  the CSS injection payload `PHPTORO_CSS`, and `phptoro_phpinfo_install()`.

Modelling conventions:

* C strings handed across the bridge boundary are modelled as Lean `String`s;
  a `char *` that may be `NULL` becomes `Option String`.
* The captured phpinfo buffer is a byte buffer with an explicit length
  (a zend string), so it is modelled as `List Char` — one `Char` per byte —
  and may contain embedded NUL bytes (`'\x00'`).  C `strstr` scans its
  haystack only up to the first NUL byte; the model reproduces this.
* Observable effects (callback invocations, warnings, `free` calls, bytes
  written to the output stream, the PHP-level return value) are recorded in
  explicit result structures.
-/

/- ── phptoro_ext.c : the dispatch bridge ─────────────────────────────────── -/

/-- A NativeCallback, the Rust dispatch callback
`char *(*)(const char *cmd, const char *json)` stored in `g_call_fn`.
A `NULL` return is modelled as `none`. -/
abbrev NativeCallback := String → String → Option String

/-- Observable outcome of one execution of `PHP_FUNCTION(phptoro)`:
`calls` is the list of callback invocations performed, in order, with their
`(command, json)` arguments; `warned` records whether an `E_WARNING` was
emitted via `php_error_docref`; `ret` is `some s` when the function returns
the string `s` to the script and `none` when it returns the `false`
sentinel; `freed` counts how many times `free` was applied to the buffer
returned by the callback. -/
structure DispatchOutcome where
  calls : List (String × String)
  warned : Bool
  ret : Option String
  freed : Nat

/-- Shallow embedding of `PHP_FUNCTION(phptoro)` (phptoro_ext.c, lines
77-104).  `g_call_fn` is the process-wide callback slot; `command` is the
required first argument; `params` is the optional second argument (`none`
when omitted).  The effective payload is `params` when it is present and
non-empty, and the literal two-character string of an opening and a closing
curly brace (`"\x7b\x7d"`, i.e. the JSON empty object) otherwise, mirroring
`(params && params_len > 0) ? params : "..."` on line 95. -/
def phptoro (g_call_fn : Option NativeCallback) (command : String)
    (params : Option String) : DispatchOutcome :=
  match g_call_fn with
  | none => ⟨[], true, none, 0⟩
  | some cb =>
    let json : String :=
      match params with
      | some p => if p.length > 0 then p else "\x7b\x7d"
      | none => "\x7b\x7d"
    match cb command json with
    | none => ⟨[(command, json)], false, none, 0⟩
    | some result => ⟨[(command, json)], false, some result, 1⟩

/-- The C literal `phptoro_ini_entries` (phptoro_ext.c, lines 44-54): the
INI defaults installed via `sapi_module.ini_entries`.  The content is the
concatenation of the fragments of the C string literal, up to the explicit
terminating NUL. -/
def phptoro_ini_entries : String :=
  "variables_order=EGPCS\n"
  ++ "request_order=GP\n"
  ++ "output_buffering=4096\n"
  ++ "implicit_flush=0\n"
  ++ "html_errors=0\n"
  ++ "display_errors=1\n"
  ++ "log_errors=1\n"
  ++ "opcache.enable=0\n"
  ++ "opcache.enable_cli=0\n"

/-- Split a character list at every occurrence of the separator `c`. -/
def splitOnChar (c : Char) : List Char → List (List Char)
  | [] => [[]]
  | d :: rest =>
    let r := splitOnChar c rest
    if d = c then [] :: r
    else
      match r with
      | [] => [[d]]
      | g :: gs => (d :: g) :: gs

/-- Parse one `key=value` line of an INI entries string: the key is
everything before the first `=`, the value everything after it. -/
def keyValOfLine (line : List Char) : String × String :=
  (String.mk (line.takeWhile (fun c => c != '=')),
   String.mk ((line.dropWhile (fun c => c != '=')).drop 1))

/-- The `key=value` pairs contained in an INI entries string: its non-empty
newline-separated lines, each split at its first `=`. -/
def iniPairs (s : String) : List (String × String) :=
  ((splitOnChar '\n' s.data).filter (fun l => l ≠ [])).map keyValOfLine

/-- The mutable SAPI fields touched by the bridge: whether
`sapi_module.additional_functions` has been pointed at `phptoro_fn_table`,
whether `sapi_module.ini_defaults` has been pointed at
`phptoro_ini_defaults`, and the current `sapi_module.ini_entries` string. -/
structure SapiModule where
  additional_functions_set : Bool
  ini_defaults_set : Bool
  ini_entries : Option String

/-- Process-wide state of the bridge: the `g_call_fn` slot (phptoro_ext.c,
line 15) together with the SAPI module fields. -/
structure BridgeState where
  g_call_fn : Option NativeCallback
  sapi : SapiModule

/-- Shallow embedding of `phptoro_ini_defaults` (phptoro_ext.c, lines
56-58): sets `sapi_module.ini_entries` to `phptoro_ini_entries`. -/
def phptoro_ini_defaults (s : SapiModule) : SapiModule :=
  ⟨s.additional_functions_set, s.ini_defaults_set, some phptoro_ini_entries⟩

/-- Shallow embedding of `phptoro_ext_prepare` (phptoro_ext.c, lines
60-64): unconditionally overwrites the `g_call_fn` slot with the given
callback and points the SAPI module at the bridge's function table and INI
defaults hook. -/
def phptoro_ext_prepare (call_fn : NativeCallback) (st : BridgeState) :
    BridgeState :=
  ⟨some call_fn, ⟨true, true, st.sapi.ini_entries⟩⟩

/- ── phptoro_phpinfo.c : the phpinfo override wrapper ────────────────────── -/

/-- Kind tag of a function-table entry: `internal` models
`ZEND_INTERNAL_FUNCTION` (a built-in/native function), `user` models any
other `type` value (e.g. a script-defined function). -/
inductive FnKind where
  | internal
  | user
deriving DecidableEq

/-- One entry of the runtime's function table (`zend_function`): its kind
tag and its handler, modelled abstractly by a value of type `H`. -/
structure ZendFunction (H : Type) where
  kind : FnKind
  handler : H

/-- The runtime's function table `CG(function_table)`: a map from function
names to entries. -/
abbrev FunctionTable (H : Type) := String → Option (ZendFunction H)

/-- Shallow embedding of `phptoro_phpinfo_install` (phptoro_phpinfo.c,
lines 104-111): look up the entry named `phpinfo`; if it exists and its
kind is built-in (`ZEND_INTERNAL_FUNCTION`), replace its handler with
`newHandler` (the address of `ZEND_FN(phptoro_phpinfo)`), leaving every
other entry alone; otherwise leave the table untouched.  The routine has
no error channel. -/
def phptoro_phpinfo_install (H : Type) (newHandler : H)
    (table : FunctionTable H) : FunctionTable H :=
  match table "phpinfo" with
  | some fn =>
    if fn.kind = FnKind.internal then
      fun name => if name = "phpinfo" then some ⟨fn.kind, newHandler⟩ else table name
    else table
  | none => table

/-- The C literal `PHPTORO_CSS` (phptoro_phpinfo.c, lines 17-50): the fixed
injection payload.  `\x7b` and `\x7d` denote the literal opening and
closing curly braces of the CSS source. -/
def PHPTORO_CSS : String :=
  "</style>\n<style>\n"
  ++ ":root \x7b --toro: #a20009; --toro-light: #f5d0d2; --toro-dark: #6b0006; \x7d\n"
  ++ "body \x7b background-color: #fff; color: #222; font-family: sans-serif; \x7d\n"
  ++ "pre \x7b margin: 0; font-family: monospace; \x7d\n"
  ++ "a \x7b color: var(--toro); \x7d\n"
  ++ "a:hover \x7b text-decoration: none; \x7d\n"
  ++ "table \x7b border-collapse: collapse; border: 0; width: 934px; box-shadow: 1px 2px 3px rgba(0,0,0,.2); \x7d\n"
  ++ ".center \x7b text-align: center; \x7d\n"
  ++ ".center table \x7b margin: 1em auto; text-align: left; \x7d\n"
  ++ ".center th \x7b text-align: center !important; \x7d\n"
  ++ "td, th \x7b border: 1px solid #999; font-size: 75%; vertical-align: baseline; padding: 4px 5px; \x7d\n"
  ++ "th \x7b position: sticky; top: 0; background: inherit; \x7d\n"
  ++ "h1 \x7b font-size: 150%; color: var(--toro); \x7d\n"
  ++ "h2 \x7b font-size: 125%; color: var(--toro); \x7d\n"
  ++ "h2 > a \x7b text-decoration: none; \x7d\n"
  ++ "h2 > a:hover \x7b text-decoration: underline; \x7d\n"
  ++ ".p \x7b text-align: left; \x7d\n"
  ++ ".e \x7b background-color: var(--toro-light); width: 300px; font-weight: bold; \x7d\n"
  ++ ".h \x7b background-color: var(--toro); color: #fff; font-weight: bold; \x7d\n"
  ++ ".v \x7b background-color: #f0f0f0; max-width: 300px; overflow-x: auto; word-wrap: break-word; \x7d\n"
  ++ ".v i \x7b color: #999; \x7d\n"
  ++ "img \x7b float: right; border: 0; \x7d\n"
  ++ "hr \x7b width: 934px; background-color: #ddd; border: 0; height: 1px; \x7d\n"
  ++ "@media (prefers-color-scheme: dark) \x7b\n"
  ++ "  body \x7b background: #1a1a1a; color: #e0e0e0; \x7d\n"
  ++ "  .h td, td.e, th \x7b border-color: #555; \x7d\n"
  ++ "  td \x7b border-color: #444; \x7d\n"
  ++ "  .e \x7b background-color: #3d1012; color: var(--toro-light); \x7d\n"
  ++ "  .h \x7b background-color: var(--toro-dark); color: #fff; \x7d\n"
  ++ "  .v \x7b background-color: #1a1a1a; \x7d\n"
  ++ "  hr \x7b background-color: #444; \x7d\n"
  ++ "  h1, h2, a \x7b color: #e05060; \x7d\n"
  ++ "\x7d\n"

/-- The anchor token `"</style>"` searched for by the wrapper. -/
def anchorChars : List Char := "</style>".data

/-- The initial NUL-free segment of a byte buffer: the part of the buffer a
C string function such as `strstr` actually scans, i.e. everything strictly
before the first embedded NUL byte. -/
def nulSegment (s : List Char) : List Char :=
  s.takeWhile (fun c => c != '\x00')

/-- Index of the first occurrence of `needle` as a contiguous sublist of
the haystack, if any. -/
def findIndexOfSub (needle : List Char) : List Char → Option Nat
  | [] => if needle.isPrefixOf ([] : List Char) then some 0 else none
  | c :: rest =>
    if needle.isPrefixOf (c :: rest) then some 0
    else (findIndexOfSub needle rest).map (fun i => i + 1)

/-- C `strstr(hay, needle)` on a byte buffer `hay`: the scan stops at the
first NUL byte, so an occurrence is found only inside `nulSegment hay`.
The result is the byte offset of the match from the start of the buffer
(`style_end - html` in the C source). -/
def strstr (hay needle : List Char) : Option Nat :=
  findIndexOfSub needle (nulSegment hay)

/-- Observable outcome of one execution of `PHP_FUNCTION(phptoro_phpinfo)`
after the capture phase: the bytes written to the real output stream via
`PHPWRITE`, and the PHP-level boolean return value. -/
structure PhpinfoResult where
  written : List Char
  retval : Bool
deriving DecidableEq

/-- Shallow embedding of `PHP_FUNCTION(phptoro_phpinfo)` (phptoro_phpinfo.c,
lines 58-96) from line 74 on.  The input is the buffer captured from
`php_print_info`: `none` models a non-string `zval` from
`php_output_get_contents` (absent content), `some html` a captured string
of bytes.  Absent or empty content: nothing is written and the function
returns `true` (line 76, `RETURN_TRUE`).  Otherwise `strstr` looks for the
anchor: on a hit at offset `i` the wrapper writes the first `i` bytes, then
`PHPTORO_CSS` (its `sizeof - 1` bytes), then the rest of the buffer from
offset `i` (lines 87-89); on a miss it writes the buffer unchanged (line
91).  Both branches return `true` (line 95). -/
def phptoro_phpinfo (captured : Option (List Char)) : PhpinfoResult :=
  match captured with
  | none => ⟨[], true⟩
  | some html =>
    if html.length = 0 then ⟨[], true⟩
    else
      match strstr html anchorChars with
      | some i => ⟨html.take i ++ PHPTORO_CSS.data ++ html.drop i, true⟩
      | none => ⟨html, true⟩

/-- Number of occurrences of `needle` as a contiguous sublist of `hay`:
the number of offsets at which `needle` is a prefix of the corresponding
suffix of `hay`. -/
def countSub (needle hay : List Char) : Nat :=
  ((Finset.range (hay.length + 1)).filter
    (fun j => needle.isPrefixOf (hay.drop j) = true)).card

/-- A buffer consisting of a NUL byte followed by the anchor token: the
anchor occurs in it, but past an embedded NUL, where C `strstr` cannot see
it. -/
def nulAnchor : List Char := '\x00' :: "</style>".data

/- ── Helper lemmas ───────────────────────────────────────────────────────── -/

theorem str_length_pos (s : String) (h : s ≠ "") : 0 < s.length := by
  cases s with
  | mk data =>
    cases data with
    | nil => exact absurd rfl h
    | cons c cs => simp [String.length]

theorem findIndexOfSub_isPrefixOf (needle : List Char) :
    ∀ (l : List Char) (i : Nat), findIndexOfSub needle l = some i →
      needle.isPrefixOf (l.drop i) = true := by
  intro l
  induction l with
  | nil =>
    intro i h
    simp only [findIndexOfSub] at h
    split at h
    · rename_i hc
      cases h
      simpa using hc
    · cases h
  | cons c rest ih =>
    intro i h
    simp only [findIndexOfSub] at h
    split at h
    · rename_i hc
      cases h
      simpa using hc
    · cases hrec : findIndexOfSub needle rest with
      | none => rw [hrec] at h; cases h
      | some j =>
        rw [hrec] at h
        cases h
        simpa using ih j hrec

theorem findIndexOfSub_min (needle : List Char) :
    ∀ (l : List Char) (i : Nat), findIndexOfSub needle l = some i →
      ∀ j, j < i → needle.isPrefixOf (l.drop j) = false := by
  intro l
  induction l with
  | nil =>
    intro i h j hj
    simp only [findIndexOfSub] at h
    split at h
    · cases h; omega
    · cases h
  | cons c rest ih =>
    intro i h j hj
    simp only [findIndexOfSub] at h
    split at h
    · cases h; omega
    · rename_i hcond
      cases hrec : findIndexOfSub needle rest with
      | none => rw [hrec] at h; cases h
      | some k =>
        rw [hrec] at h
        cases h
        cases j with
        | zero =>
          simpa using Bool.not_eq_true _ |>.mp hcond
        | succ j =>
          have hj' : j < k := by simpa using hj
          simpa using ih k hrec j hj'

theorem findIndexOfSub_none (needle : List Char) :
    ∀ (l : List Char), findIndexOfSub needle l = none →
      ∀ j, needle.isPrefixOf (l.drop j) = false := by
  intro l
  induction l with
  | nil =>
    intro h j
    simp only [findIndexOfSub] at h
    split at h
    · cases h
    · rename_i hcond
      simpa [List.drop_nil] using Bool.not_eq_true _ |>.mp hcond
  | cons c rest ih =>
    intro h j
    simp only [findIndexOfSub] at h
    split at h
    · cases h
    · rename_i hcond
      cases hrec : findIndexOfSub needle rest with
      | none =>
        cases j with
        | zero => simpa using Bool.not_eq_true _ |>.mp hcond
        | succ j => simpa using ih hrec j
      | some k => rw [hrec] at h; cases h

theorem isPrefixOf_append_right (n a b : List Char)
    (h : n.isPrefixOf a = true) : n.isPrefixOf (a ++ b) = true := by
  rw [List.isPrefixOf_iff_prefix] at h ⊢
  exact h.trans (List.prefix_append a b)

theorem isPrefixOf_of_append_le (n a b : List Char)
    (h : n.isPrefixOf (a ++ b) = true) (hle : n.length ≤ a.length) :
    n.isPrefixOf a = true := by
  rw [List.isPrefixOf_iff_prefix] at h ⊢
  obtain ⟨t, ht⟩ := h
  have h1 : (a ++ b).take n.length = n := by
    rw [← ht]
    exact List.take_left n t
  have h2 : (a ++ b).take n.length = a.take n.length := by
    rw [List.take_append_eq_append_take]
    have : n.length - a.length = 0 := by omega
    simp [this]
  have h3 : a.take n.length = n := by rw [← h2, h1]
  rw [← h3]
  exact List.take_prefix n.length a

theorem anchorChars_length : anchorChars.length = 8 := by decide

/-- Characterisation of the wrapper on a `strstr` hit: the anchor is a
prefix of the suffix of the buffer at the reported offset, the offset is
the first such one, the match lies inside the buffer, and the wrapper
writes the three-part splice and returns `true`. -/
theorem strstr_some_spec (html : List Char) (i : Nat)
    (h : strstr html anchorChars = some i) :
    anchorChars.isPrefixOf (html.drop i) = true
    ∧ i + 8 ≤ html.length
    ∧ (∀ j, j < i → anchorChars.isPrefixOf (html.drop j) = false)
    ∧ (phptoro_phpinfo (some html)).written
        = html.take i ++ PHPTORO_CSS.data ++ html.drop i
    ∧ (phptoro_phpinfo (some html)).retval = true := by
  have hfind : findIndexOfSub anchorChars (nulSegment html) = some i := h
  have hseg : nulSegment html ++ html.dropWhile (fun c => c != '\x00') = html := by
    unfold nulSegment
    exact List.takeWhile_append_dropWhile (fun c => c != '\x00') html
  have hsegpre := findIndexOfSub_isPrefixOf anchorChars (nulSegment html) i hfind
  have hseglen : i + 8 ≤ (nulSegment html).length := by
    have h1 := (List.isPrefixOf_iff_prefix.mp hsegpre).length_le
    rw [anchorChars_length] at h1
    rw [List.length_drop] at h1
    have h2 : (nulSegment html).drop i ≠ [] := by
      intro hnil
      rw [hnil] at hsegpre
      have := List.isPrefixOf_iff_prefix.mp hsegpre
      have h3 := this.length_le
      rw [anchorChars_length] at h3
      simp at h3
    have h4 : i < (nulSegment html).length := by
      by_contra hcon
      push_neg at hcon
      exact h2 (List.drop_eq_nil_of_le hcon)
    omega
  have hhtmllen : (nulSegment html).length ≤ html.length := by
    have := congrArg List.length hseg
    rw [List.length_append] at this
    omega
  have hlen : i + 8 ≤ html.length := by omega
  have hdropsplit : ∀ j, j ≤ (nulSegment html).length →
      html.drop j = (nulSegment html).drop j ++ html.dropWhile (fun c => c != '\x00') := by
    intro j hjle
    conv_lhs => rw [← hseg]
    rw [List.drop_append_eq_append_drop]
    have : j - (nulSegment html).length = 0 := by omega
    simp [this]
  have hpre : anchorChars.isPrefixOf (html.drop i) = true := by
    rw [hdropsplit i (by omega)]
    exact isPrefixOf_append_right _ _ _ hsegpre
  have hmin : ∀ j, j < i → anchorChars.isPrefixOf (html.drop j) = false := by
    intro j hj
    have hminseg := findIndexOfSub_min anchorChars (nulSegment html) i hfind j hj
    cases hb : anchorChars.isPrefixOf (html.drop j) with
    | false => rfl
    | true =>
      exfalso
      rw [hdropsplit j (by omega)] at hb
      have hle : anchorChars.length ≤ ((nulSegment html).drop j).length := by
        rw [anchorChars_length, List.length_drop]
        omega
      have := isPrefixOf_of_append_le _ _ _ hb hle
      rw [hminseg] at this
      cases this
  have hne : ¬ (html.length = 0) := by omega
  refine ⟨hpre, hlen, hmin, ?_, ?_⟩
  · simp [phptoro_phpinfo, hne, h]
  · simp [phptoro_phpinfo, hne, h]

/- ── Claim theorems ──────────────────────────────────────────────────────── -/

/-- C1 counterexample: at empty captured content the wrapper returns `true`
(`RETURN_TRUE`, phptoro_phpinfo.c line 76), so the claim that it reports a
failure outcome (not success) is false at this input. -/
theorem phpinfo_empty_capture_not_failure :
    ¬ ((phptoro_phpinfo (some ([] : List Char))).retval = false) := by
  decide

/-- C1 (amended): for every invocation of the override wrapper in which the
captured content is absent or empty, the wrapper writes nothing to the
output stream and reports success (returns `true`); the empty-capture case
is not reported as a failure. -/
theorem phpinfo_empty_capture_success_no_write :
    phptoro_phpinfo none = ⟨[], true⟩
    ∧ phptoro_phpinfo (some []) = ⟨[], true⟩ := by
  exact ⟨rfl, by decide⟩

/-- C3: for every command string and every payload, if no NativeCallback is
registered (`g_call_fn` is `NULL`), `phptoro` returns the failure sentinel
(`false`, modelled as `ret = none`), emits the `E_WARNING` diagnostic, and
performs no callback invocation. -/
theorem invoke_without_callback_fails (cmd : String) (params : Option String) :
    phptoro none cmd params = ⟨[], true, none, 0⟩ := rfl

/-- C5: for every registered callback and every command string, invoking
with the payload omitted and invoking with the payload supplied as the
empty string both make the callback receive the literal `"\x7b\x7d"`
(the two-character string of an opening and closing brace) as its payload
argument. -/
theorem invoke_default_payload (cb : NativeCallback) (cmd : String) :
    (phptoro (some cb) cmd none).calls = [(cmd, "\x7b\x7d")]
    ∧ (phptoro (some cb) cmd (some "")).calls = [(cmd, "\x7b\x7d")] := by
  constructor
  · unfold phptoro
    cases hcb : cb cmd "\x7b\x7d" <;> simp [hcb]
  · unfold phptoro
    have hlen : ¬ (("" : String).length > 0) := by decide
    simp only [hlen, if_false]
    cases hcb : cb cmd "\x7b\x7d" <;> simp [hcb]

/-- C10: `phptoro_ext_prepare` is last-write-wins: after `prepare f` then
`prepare g` the process-wide slot holds `g`, and every subsequent `phptoro`
invocation dispatches against `g`; nothing in the code prevents the
reassignment. -/
theorem prepare_last_write_wins (f g : NativeCallback) (st : BridgeState) :
    (phptoro_ext_prepare g (phptoro_ext_prepare f st)).g_call_fn = some g
    ∧ ∀ cmd params,
        phptoro (phptoro_ext_prepare g (phptoro_ext_prepare f st)).g_call_fn cmd params
          = phptoro (some g) cmd params :=
  ⟨rfl, fun _ _ => rfl⟩

/-- C4: for every registered callback `cb`, command and non-empty payload,
`phptoro` calls `cb` exactly once with `(cmd, payload)`; whenever `cb`
returns a string buffer, `phptoro` returns that buffer's content verbatim
to the script and releases the buffer exactly once. -/
theorem invoke_dispatches_once_and_frees (cb : NativeCallback) (cmd p : String)
    (h : p ≠ "") :
    (phptoro (some cb) cmd (some p)).calls = [(cmd, p)]
    ∧ ∀ s, cb cmd p = some s →
        (phptoro (some cb) cmd (some p)).ret = some s
        ∧ (phptoro (some cb) cmd (some p)).freed = 1 := by
  have hp : ("" : String).length < p.length := str_length_pos p h
  have hjson : (if p.length > 0 then p else "\x7b\x7d") = p := if_pos hp
  constructor
  · unfold phptoro
    simp only [hjson]
    cases hcb : cb cmd p <;> simp [hcb]
  · intro s hs
    unfold phptoro
    simp [hjson, hs]

/-- C4 witness: a concrete instrumented callback, command and payload
instantiating `invoke_dispatches_once_and_frees`. -/
theorem invoke_dispatches_once_and_frees_witness :
    ("x" : String) ≠ ""
    ∧ ((phptoro (some (fun c j => some (c ++ j))) "cmd" (some "x")).calls
          = [("cmd", "x")]
        ∧ ∀ s, (fun c j => some (c ++ j)) "cmd" "x" = some s →
            (phptoro (some (fun c j => some (c ++ j))) "cmd" (some "x")).ret = some s
            ∧ (phptoro (some (fun c j => some (c ++ j))) "cmd" (some "x")).freed = 1) :=
  ⟨by decide,
   invoke_dispatches_once_and_frees (fun c j => some (c ++ j)) "cmd" "x" (by decide)⟩

/-- C7: for every state of the function table in which the entry named
`phpinfo` is absent, or present but not of built-in kind,
`phptoro_phpinfo_install` leaves the table (every entry and every handler)
unchanged; the routine has no error channel, so no error is reported. -/
theorem install_absent_or_user_no_op (H : Type) (nh : H) (table : FunctionTable H)
    (h : table "phpinfo" = none
      ∨ ∀ fn, table "phpinfo" = some fn → fn.kind ≠ FnKind.internal) :
    phptoro_phpinfo_install H nh table = table := by
  unfold phptoro_phpinfo_install
  cases htab : table "phpinfo" with
  | none => rfl
  | some fn =>
    rcases h with h | h
    · rw [htab] at h
      cases h
    · have hk := h fn htab
      simp [hk]

/-- C7 witness: an empty function table instantiating
`install_absent_or_user_no_op`. -/
theorem install_absent_or_user_no_op_witness :
    (fun _ : String => (none : Option (ZendFunction Nat))) "phpinfo" = none
    ∧ phptoro_phpinfo_install Nat 0 (fun _ => none) = (fun _ => none) :=
  ⟨rfl, install_absent_or_user_no_op Nat 0 (fun _ => none) (Or.inl rfl)⟩

/-- C8: the configuration defaults installed via `phptoro_ini_entries` are
exactly the nine pairs below and no other: `variables_order=EGPCS`
(environment, get, post, cookies, server), `request_order=GP` (get, post),
`output_buffering=4096`, `implicit_flush=0`, `html_errors=0`,
`display_errors=1`, `log_errors=1`, `opcache.enable=0` and
`opcache.enable_cli=0` (bytecode cache off for embedded and command-line
modes). -/
theorem ini_defaults_exact :
    iniPairs phptoro_ini_entries =
      [("variables_order", "EGPCS"),
       ("request_order", "GP"),
       ("output_buffering", "4096"),
       ("implicit_flush", "0"),
       ("html_errors", "0"),
       ("display_errors", "1"),
       ("log_errors", "1"),
       ("opcache.enable", "0"),
       ("opcache.enable_cli", "0")] := by
  decide

set_option maxRecDepth 8000 in
/-- C2 counterexample: the buffer `nulAnchor` (a NUL byte followed by the
anchor token) is non-empty and contains the anchor — its first occurrence
is at offset 1 — yet the wrapper writes the buffer unchanged instead of
`prefix ++ PHPTORO_CSS ++ suffix`, because C `strstr` stops scanning at
the embedded NUL and reports no match. -/
theorem phpinfo_nul_hidden_anchor_not_spliced :
    findIndexOfSub anchorChars nulAnchor = some 1
    ∧ (phptoro_phpinfo (some nulAnchor)).written = nulAnchor
    ∧ ¬ ((phptoro_phpinfo (some nulAnchor)).written
          = nulAnchor.take 1 ++ PHPTORO_CSS.data ++ nulAnchor.drop 1) := by
  refine ⟨by decide, by decide, ?_⟩
  intro hcon
  have hlen := congrArg List.length hcon
  have hw : (phptoro_phpinfo (some nulAnchor)).written.length = 9 := by decide
  have hcss : PHPTORO_CSS.data.length = 1583 := by decide
  have htk : (nulAnchor.take 1).length = 1 := by decide
  have hdr : (nulAnchor.drop 1).length = 8 := by decide
  rw [hw, List.length_append, List.length_append, hcss, htk, hdr] at hlen
  omega

/-- C2 (amended): for every non-empty captured content whose anchor token
is found by `strstr` — i.e. the anchor occurs within the content's initial
NUL-free segment, which in particular holds for every NUL-free content
containing the anchor — the wrapper writes exactly
`prefix ++ PHPTORO_CSS ++ suffix`, where `prefix` is the captured bytes
strictly before the first anchor occurrence, `suffix` is the captured
bytes from that occurrence to the end (so `suffix` begins with the anchor
and `prefix ++ suffix` is the original content byte for byte), and the
wrapper reports success. -/
theorem phpinfo_splice_correct (html : List Char) (i : Nat)
    (h : strstr html anchorChars = some i) :
    (phptoro_phpinfo (some html)).written
        = html.take i ++ PHPTORO_CSS.data ++ html.drop i
    ∧ anchorChars.isPrefixOf (html.drop i) = true
    ∧ (∀ j, j < i → anchorChars.isPrefixOf (html.drop j) = false)
    ∧ html.take i ++ html.drop i = html
    ∧ (phptoro_phpinfo (some html)).retval = true := by
  obtain ⟨hpre, hlen, hmin, hw, hr⟩ := strstr_some_spec html i h
  exact ⟨hw, hpre, hmin, List.take_append_drop i html, hr⟩

/-- C2 witness: the anchor token itself as captured content instantiates
`phpinfo_splice_correct` at offset 0. -/
theorem phpinfo_splice_correct_witness :
    strstr ("</style>".data) anchorChars = some 0
    ∧ ((phptoro_phpinfo (some "</style>".data)).written
          = ("</style>".data).take 0 ++ PHPTORO_CSS.data ++ ("</style>".data).drop 0
        ∧ anchorChars.isPrefixOf (("</style>".data).drop 0) = true
        ∧ (∀ j, j < 0 → anchorChars.isPrefixOf (("</style>".data).drop j) = false)
        ∧ ("</style>".data).take 0 ++ ("</style>".data).drop 0 = "</style>".data
        ∧ (phptoro_phpinfo (some "</style>".data)).retval = true) :=
  ⟨by decide, phpinfo_splice_correct "</style>".data 0 (by decide)⟩

/-- C6: for every non-empty captured content that contains no occurrence
of the anchor token anywhere, the wrapper writes the captured content
unchanged, byte for byte, and still reports success. -/
theorem phpinfo_no_anchor_fallback (html : List Char) (hne : html ≠ [])
    (h : findIndexOfSub anchorChars html = none) :
    phptoro_phpinfo (some html) = ⟨html, true⟩ := by
  have hstr : strstr html anchorChars = none := by
    cases hs : strstr html anchorChars with
    | none => rfl
    | some i =>
      exfalso
      obtain ⟨hpre, _, _, _, _⟩ := strstr_some_spec html i hs
      have := findIndexOfSub_none anchorChars html h i
      rw [hpre] at this
      cases this
  have hlen : ¬ (html.length = 0) := by
    intro h0
    exact hne (List.eq_nil_of_length_eq_zero h0)
  simp [phptoro_phpinfo, hlen, hstr]

/-- C6 witness: a one-byte content with no anchor occurrence instantiates
`phpinfo_no_anchor_fallback`. -/
theorem phpinfo_no_anchor_fallback_witness :
    (['a'] : List Char) ≠ []
    ∧ findIndexOfSub anchorChars ['a'] = none
    ∧ phptoro_phpinfo (some ['a']) = ⟨['a'], true⟩ :=
  ⟨by decide, by decide, phpinfo_no_anchor_fallback ['a'] (by decide) (by decide)⟩

set_option maxRecDepth 8000 in
theorem css_data_length : PHPTORO_CSS.data.length = 1583 := by decide

set_option maxRecDepth 2000 in
theorem css_take17 : PHPTORO_CSS.data.take 17 = ("</style>\n<style>\n").data := by
  decide

theorem anchor_isPrefixOf_css : anchorChars.isPrefixOf PHPTORO_CSS.data = true := by
  decide

/-- C9 counterexample: the buffer `nulAnchor` contains one occurrence of
the anchor token, yet the wrapper's output for it contains fewer than two
occurrences — no splice happens because the anchor hides behind an
embedded NUL, so the claimed consequence fails for this content. -/
theorem phpinfo_anchor_double_claim_false :
    0 < countSub anchorChars nulAnchor
    ∧ countSub anchorChars ((phptoro_phpinfo (some nulAnchor)).written) < 2 := by
  constructor <;> decide

/-- C9 (amended): the injection payload `PHPTORO_CSS` begins with the
anchor token `</style>` followed by a new `<style>` opening tag; and for
every captured content in which `strstr` finds the anchor (in particular
every NUL-free content containing it), the spliced output contains at
least two occurrences of the anchor token. -/
theorem phpinfo_css_doubles_anchor (html : List Char) (i : Nat)
    (h : strstr html anchorChars = some i) :
    PHPTORO_CSS.data.take 17 = ("</style>\n<style>\n").data
    ∧ 2 ≤ countSub anchorChars ((phptoro_phpinfo (some html)).written) := by
  obtain ⟨hpre, hlen8, hmin, hw, hr⟩ := strstr_some_spec html i h
  refine ⟨css_take17, ?_⟩
  rw [hw]
  have htake_len : (html.take i).length = i := by
    rw [List.length_take]
    omega
  have hW_drop_i : (html.take i ++ PHPTORO_CSS.data ++ html.drop i).drop i
      = PHPTORO_CSS.data ++ html.drop i := by
    rw [List.append_assoc, List.drop_append_eq_append_drop, htake_len,
      Nat.sub_self, List.drop_zero,
      List.drop_eq_nil_of_le (le_of_eq htake_len), List.nil_append]
  have hlen2 : (html.take i ++ PHPTORO_CSS.data).length
      = i + PHPTORO_CSS.data.length := by
    rw [List.length_append, htake_len]
  have hW_drop_b : (html.take i ++ PHPTORO_CSS.data ++ html.drop i).drop
        (i + PHPTORO_CSS.data.length) = html.drop i := by
    rw [List.drop_append_eq_append_drop, hlen2,
      Nat.sub_self, List.drop_zero,
      List.drop_eq_nil_of_le (le_of_eq hlen2), List.nil_append]
  have hWlen : (html.take i ++ PHPTORO_CSS.data ++ html.drop i).length
      = i + PHPTORO_CSS.data.length + (html.length - i) := by
    rw [List.length_append, List.length_append, htake_len, List.length_drop]
  have hLpos : 0 < PHPTORO_CSS.data.length := by
    rw [css_data_length]
    omega
  unfold countSub
  refine Finset.one_lt_card.mpr
    ⟨i, Finset.mem_filter.mpr ⟨Finset.mem_range.mpr (by omega), ?_⟩,
     i + PHPTORO_CSS.data.length,
     Finset.mem_filter.mpr ⟨Finset.mem_range.mpr (by omega), ?_⟩,
     by omega⟩
  · rw [hW_drop_i]
    exact isPrefixOf_append_right _ _ _ anchor_isPrefixOf_css
  · rw [hW_drop_b]
    exact hpre

/-- C9 witness: the anchor token itself as captured content instantiates
`phpinfo_css_doubles_anchor` at offset 0. -/
theorem phpinfo_css_doubles_anchor_witness :
    strstr ("</style>".data) anchorChars = some 0
    ∧ (PHPTORO_CSS.data.take 17 = ("</style>\n<style>\n").data
        ∧ 2 ≤ countSub anchorChars ((phptoro_phpinfo (some "</style>".data)).written)) :=
  ⟨by decide, phpinfo_css_doubles_anchor "</style>".data 0 (by decide)⟩
